import Mathlib

/-!
Verification of the telemetry compaction protocol and durable counters of the
RemoteLogger library (src/libraries/RemoteLogger/RemoteLogger.cpp).

The C++ is shallowly embedded: Arduino `String` values become Lean `String`,
`float` sensor values become exact rationals `ℚ`, the SD card becomes a map
from file names to optional line lists, and every memory access the C++
performs through a possibly out-of-range index is modelled as an
`Option`-valued lookup (`none` where the C++ reads out of bounds).
The `HeaderDictionary` table (`HEADERS`, `LETTERS`, `MULTIPLIERS`, declared in
`RemoteLogger.h`, which is not among the sources) is passed as explicit
parameters; spec section 4.1 fixes only its shape, not its contents.
-/

namespace RemoteLoggerSpec

/- ===== small rendering and arithmetic helpers (Arduino primitives) ===== -/

/-- Decimal digit characters of a natural number, fuel-indexed so that the
definition is structural; `fuel = n + 1` always suffices. Models the decimal
rendering performed by Arduino `String(long)`. -/
def natCharsAux : Nat → Nat → List Char
  | 0, _ => []
  | fuel + 1, n =>
    if n < 10 then [Nat.digitChar n]
    else natCharsAux fuel (n / 10) ++ [Nat.digitChar (n % 10)]

/-- Decimal digit characters of a natural number. -/
def natChars (n : Nat) : List Char := natCharsAux (n + 1) n

/-- Arduino `String(long)`: decimal rendering of an integer, a leading `-`
for negative values. -/
def intStr (i : Int) : String :=
  if i < 0 then "-" ++ String.mk (natChars i.natAbs) else String.mk (natChars i.toNat)

/-- Truncation toward zero of a rational, modelling a C `(long)` cast.
`Int.tdiv` is the C-style truncating division. -/
def truncQ (q : ℚ) : Int := Int.tdiv q.num (q.den : Int)

/-- Arduino `round` macro, `((x)>=0?(long)((x)+0.5):(long)((x)-0.5))`:
half away from zero. Used by `prep_msg` on every scaled value. -/
def ardRound (q : ℚ) : Int := if 0 ≤ q then truncQ (q + 1/2) else truncQ (q - 1/2)

/-- Arduino `String::substring(a, b)`: the characters of positions
`[a, b)`, clamped to the string length. -/
def ardSubstring (s : String) (a b : Nat) : String :=
  String.mk ((s.toList.drop a).take (b - a))

/-- Indexing a C array by a signed index, as in `LETTERS[*headerIndex[i]]`:
a negative or too-large index is an out-of-bounds read, modelled as `none`. -/
def getIdx {α : Type} (l : List α) (i : Int) : Option α :=
  if i < 0 then none else l[i.toNat]?

/-- Concatenation of a list of strings with no separator. -/
def joinAll : List String → String
  | [] => ""
  | s :: rest => s ++ joinAll rest

/-- Concatenation of a list of strings with `","` between elements. -/
def commaJoin : List String → String
  | [] => ""
  | [s] => s
  | s :: rest => s ++ "," ++ commaJoin rest

/-- Splitting a character list at each `','`, accumulator form; models the
`indexOf`/`substring` comma scanning of `count_params` and
`populate_header_index` (RemoteLogger.cpp lines 507-523 and 544-561). -/
def splitCommaAux : List Char → List Char → List (List Char)
  | [], acc => [acc.reverse]
  | c :: cs, acc =>
    if c = ',' then acc.reverse :: splitCommaAux cs [] else splitCommaAux cs (c :: acc)

/-- Splitting a character list at each `','`. -/
def splitComma (s : List Char) : List (List Char) := splitCommaAux s []

/- ===== the embedded RemoteLogger code ===== -/

/-- RemoteLogger.cpp lines 567-576, `find_key`, recursive worker: linear scan
of the dictionary `HEADERS` array carrying the current scan position, first
exact match wins, `-1` when the key is absent. -/
def find_key_from : List String → String → Nat → Int
  | [], _, _ => -1
  | h :: t, key, i => if h = key then (i : Int) else find_key_from t key (i + 1)

/-- RemoteLogger.cpp lines 567-576, `find_key`. -/
def find_key (HEADERS : List String) (key : String) : Int :=
  find_key_from HEADERS key 0

/-- RemoteLogger.cpp lines 507-523, `count_params`: `0` for an empty header,
otherwise one more than the number of `','` occurrences found by the
`indexOf` loop. -/
def count_params (myHeader : String) : Nat :=
  if myHeader.length < 1 then 0 else myHeader.toList.count ',' + 1

/-- RemoteLogger.cpp lines 530-536, `produce_csv_setting`: `"s"` followed by
`n - 1` copies of `"f"`. -/
def produce_csv_setting (n : Nat) : String :=
  "s" ++ String.mk (List.replicate (n - 1) 'f')

/-- Column names of the header: the comma-separated components extracted by
the `indexOf`/`substring` loop of `populate_header_index`. -/
def colNames (myHeader : String) : List String :=
  (splitComma myHeader.toList).map String.mk

/-- RemoteLogger.cpp lines 544-561, `populate_header_index`: `find_key` of
each comma-separated column name, in order. The unsized `headerIndex`
allocation of lines 344-345 (spec section 9) is modelled as a properly sized
array; with zero parameters the source writes through `headerIndex[-1]`,
an out-of-bounds write modelled as failure. -/
def populate_header_index (HEADERS : List String) (myHeader : String) : Option (List Int) :=
  if count_params myHeader = 0 then none
  else some ((colNames myHeader).map (fun nm => find_key HEADERS nm))

/-- The batch of buffered rows as the external `CSV_Parser` presents
/HOURLY.csv to `prep_msg`: `cp[0]` is the list of datetime strings, and
`cp[column]` for `column ≥ 1` is `floats[column - 1]`, the float readings of
that column over the data rows. -/
structure CSVTable where
  datetimes : List String
  floats : List (List ℚ)

/-- Access `out_datetimes[row]` of `prep_msg` (RemoteLogger.cpp line 362-363);
a negative or too-large row index is an out-of-bounds read. -/
def cpDate (t : CSVTable) (row : Int) : Option String :=
  if row < 0 then none else t.datetimes[row.toNat]?

/-- Access `((float *)cp[column])[row]` of `prep_msg` for `column ≥ 1`;
a negative or too-large index is an out-of-bounds read. -/
def cpFloat (t : CSVTable) (column : Nat) (row : Int) : Option ℚ :=
  if row < 0 then none
  else do
    let col ← t.floats[column - 1]?
    col[row.toNat]?

/-- Scaling step of `prep_msg` (RemoteLogger.cpp lines 378, 385, 396):
`round(value * MULTIPLIERS[*headerIndex[column]])`. -/
def scaled_val (MULTIPLIERS : List ℚ) (headerIndex : List Int) (column : Nat) (v : ℚ) :
    Option Int := do
  let j ← headerIndex[column]?
  let m ← getIdx MULTIPLIERS j
  some (ardRound (v * m))

/-- Letter-generation loop of `prep_msg` (RemoteLogger.cpp lines 352-354):
`datastring_msg += LETTERS[*headerIndex[i]]` for `i = 0 .. num_params - 1`. -/
def letters_loop (LETTERS : List Char) : List Int → Option String
  | [] => some ""
  | idx :: rest => do
    let c ← getIdx LETTERS idx
    let s ← letters_loop LETTERS rest
    some (String.mk [c] ++ s)

/-- Compact-timestamp extraction of `prep_msg` (RemoteLogger.cpp lines
363-366): fixed-offset substrings `[2,4)`, `[5,7)`, `[8,10)`, `[11,13)` of
the first buffered row's datetime string. -/
def compact_datetime (dt : String) : String :=
  ardSubstring dt 2 4 ++ ardSubstring dt 5 7 ++ ardSubstring dt 8 10 ++ ardSubstring dt 11 13

/-- Inner data loop of `prep_msg` (RemoteLogger.cpp lines 394-402): one row's
sampled values from `column` upward, `","` after each value except the last
column, which gets `":"`. The fuel argument is `num_params - column`, the
number of iterations the `while (column < num_params)` loop still makes. -/
def inner_loop (MULTIPLIERS : List ℚ) (headerIndex : List Int) (num_params : Nat)
    (t : CSVTable) (row : Nat) : Nat → Nat → Option String
  | 0, _ => some ""
  | fuel + 1, column => do
    let v ← cpFloat t column (row : Int)
    let sv ← scaled_val MULTIPLIERS headerIndex column v
    let rest ← inner_loop MULTIPLIERS headerIndex num_params t row fuel (column + 1)
    some (intStr sv ++ (if column ≠ num_params - 1 then "," else ":") ++ rest)

/-- Outer data loop of `prep_msg` (RemoteLogger.cpp lines 390-403): for each
row, the sampled-data section starting at column 3. The fuel argument is the
number of remaining rows. -/
def rows_loop (MULTIPLIERS : List ℚ) (headerIndex : List Int) (num_params : Nat)
    (t : CSVTable) : Nat → Nat → Option String
  | 0, _ => some ""
  | fuel + 1, row => do
    let s ← inner_loop MULTIPLIERS headerIndex num_params t row (num_params - 3) 3
    let rest ← rows_loop MULTIPLIERS headerIndex num_params t fuel (row + 1)
    some (s ++ rest)

/-- RemoteLogger.cpp lines 322-411, `prep_msg`: builds the Iridium message
from the parsed /HOURLY.csv table. Letter codes for every column, `':'`,
compact timestamp of the first row, `':'`, scaled battery then memory values
of the last row each followed by `':'`, then the sampled-data section of every
row. Each out-of-bounds array access the source can perform (dictionary miss
giving index `-1`, zero data rows giving row index `-1`) is modelled as
failure of the whole computation. -/
def prep_msg (HEADERS : List String) (LETTERS : List Char) (MULTIPLIERS : List ℚ)
    (myHeader : String) (t : CSVTable) : Option String := do
  let num_params := count_params myHeader
  let num_rows := t.datetimes.length
  let headerIndex ← populate_header_index HEADERS myHeader
  let letters ← letters_loop LETTERS headerIndex
  let dt0 ← cpDate t 0
  let battV ← cpFloat t 1 ((num_rows : Int) - 1)
  let battS ← scaled_val MULTIPLIERS headerIndex 1 battV
  let memV ← cpFloat t 2 ((num_rows : Int) - 1)
  let memS ← scaled_val MULTIPLIERS headerIndex 2 memV
  let dataS ← rows_loop MULTIPLIERS headerIndex num_params t num_rows 0
  some (letters ++ ":" ++ compact_datetime dt0 ++ ":" ++ intStr battS ++ ":" ++
        intStr memS ++ ":" ++ dataS)

/- ===== the embedded SD-card state and counter operations ===== -/

/-- The SD card: a map from file names to the optional list of lines of the
file. `none` means the file does not exist. -/
def FS : Type := String → Option (List String)

/-- RemoteLogger.cpp lines 73-91, `write_to_csv`: when the file does not
exist, write the header line and then the data line; otherwise append only
the data line (`FILE_WRITE` opens for append). The `SD.open` success checks
are modelled as always succeeding; storage failures are out of scope
(spec section 4.2 failure semantics). -/
def write_to_csv (header datastring_for_csv outname : String) (fs : FS) : FS :=
  fun n =>
    if n = outname then
      match fs outname with
      | none => some [header, datastring_for_csv]
      | some lines => some (lines ++ [datastring_for_csv])
    else fs n

/-- `SD.remove`: deletes a file; removing an absent file changes nothing. -/
def sdRemove (name : String) (fs : FS) : FS :=
  fun n => if n = name then none else fs n

/-- RemoteLogger.cpp lines 144-146, `increment_samples`:
`write_to_csv("n", "1", "/TRACKING.csv")`. -/
def increment_samples (fs : FS) : FS :=
  write_to_csv "n" "1" "/TRACKING.csv" fs

/-- Modelled from the spec: `CSV_Parser::getRowsCount()` of the external
CSV_Parser library (not part of this repository), after `readSDfile` of the
named file with a header-bearing format setting. Spec section 4.2 pins its
meaning: "counting data rows (excludes the header row)". A missing file
parses to zero rows. The format-setting argument does not affect the count. -/
def getRowsCount (_setting : String) (fs : FS) (name : String) : Nat :=
  match fs name with
  | none => 0
  | some lines => lines.length - 1

/-- RemoteLogger.cpp lines 153-157, `num_samples`:
`cp.getRowsCount() - 1` over /TRACKING.csv. -/
def num_samples (fs : FS) : Int :=
  (getRowsCount "s" fs "/TRACKING.csv" : Int) - 1

/-- RemoteLogger.cpp lines 162-172, `num_hours`: parses /HOURLY.csv with the
schema-derived setting and returns `cp.getRowsCount()`. -/
def num_hours (myHeader : String) (fs : FS) : Int :=
  let num_params := count_params myHeader
  let csv_setting := produce_csv_setting num_params
  (getRowsCount csv_setting fs "/HOURLY.csv" : Int)

/-- RemoteLogger.cpp lines 178-180, `reset_sample_counter`:
`SD.remove("/TRACKING.csv")`. -/
def reset_sample_counter (fs : FS) : FS :=
  sdRemove "/TRACKING.csv" fs

/- ===== spec-side description of the wire format ===== -/

/-- Value of the cell at `column ≥ 1`, `row` of a well-formed table. -/
def tval (t : CSVTable) (column row : Nat) : ℚ :=
  (t.floats.getD (column - 1) []).getD row 0

/-- Dictionary index the header lookup resolves for schema column `c`. -/
def keyOf (HEADERS : List String) (myHeader : String) (c : Nat) : Int :=
  find_key HEADERS ((colNames myHeader).getD c "")

/-- Multiplier the dictionary resolves for schema column `c`. -/
def multOf (HEADERS : List String) (MULTIPLIERS : List ℚ) (myHeader : String) (c : Nat) : ℚ :=
  MULTIPLIERS.getD (keyOf HEADERS myHeader c).toNat 0

/-- Letter code the dictionary resolves for schema column `c`. -/
def codeOf (HEADERS : List String) (LETTERS : List Char) (myHeader : String) (c : Nat) : Char :=
  LETTERS.getD (keyOf HEADERS myHeader c).toNat 'A'

/-- Letter section of the message: one resolved code per schema column. -/
def lettersStr (HEADERS : List String) (LETTERS : List Char) (myHeader : String)
    (np : Nat) : String :=
  String.mk ((List.range np).map (codeOf HEADERS LETTERS myHeader))

/-- Rendered scaled value of the cell at `column`, `row`. -/
def scaledStr (HEADERS : List String) (MULTIPLIERS : List ℚ) (myHeader : String)
    (t : CSVTable) (column row : Nat) : String :=
  intStr (ardRound (tval t column row * multOf HEADERS MULTIPLIERS myHeader column))

/-- Sampled-data section of one row: the scaled values of columns
`3 .. np - 1` joined by commas, closed by a colon. -/
def rowSection (HEADERS : List String) (MULTIPLIERS : List ℚ) (myHeader : String)
    (t : CSVTable) (np row : Nat) : String :=
  commaJoin ((List.range' 3 (np - 3)).map
    (fun c => scaledStr HEADERS MULTIPLIERS myHeader t c row)) ++ ":"

/-- Every column name of the schema resolves in the dictionary, with a
dictionary index inside both the letter and the multiplier tables. -/
abbrev GoodDict (HEADERS : List String) (LETTERS : List Char) (MULTIPLIERS : List ℚ)
    (myHeader : String) : Prop :=
  ∀ nm ∈ colNames myHeader, 0 ≤ find_key HEADERS nm ∧
    (find_key HEADERS nm).toNat < LETTERS.length ∧
    (find_key HEADERS nm).toNat < MULTIPLIERS.length

/-- The parsed table is rectangular and matches the schema: one float column
per non-timestamp schema column, each as long as the datetime column. -/
abbrev GoodTable (t : CSVTable) (np : Nat) : Prop :=
  t.floats.length = np - 1 ∧ ∀ col ∈ t.floats, col.length = t.datetimes.length

/- ===== basic string and list lemmas ===== -/

theorem mk_append (a b : List Char) : String.mk a ++ String.mk b = String.mk (a ++ b) := rfl

theorem toList_mk (l : List Char) : (String.mk l).toList = l := rfl

theorem toList_append (a b : String) : (a ++ b).toList = a.toList ++ b.toList := by
  cases a
  cases b
  rfl

theorem str_append_assoc (a b c : String) : a ++ b ++ c = a ++ (b ++ c) := by
  cases a
  cases b
  cases c
  simp [mk_append, List.append_assoc]

theorem str_append_empty (s : String) : s ++ "" = s := by
  cases s
  show String.mk (_ ++ []) = _
  simp

theorem getElem?_eq_getD {α : Type} (l : List α) (i : Nat) (d : α) (h : i < l.length) :
    l[i]? = some (l.getD i d) := by
  induction l generalizing i with
  | nil => simp at h
  | cons a t ih =>
    cases i with
    | zero => simp
    | succ j =>
      simp only [List.length_cons] at h
      simpa using ih j (by omega)

theorem getD_mem {α : Type} (l : List α) (i : Nat) (d : α) (h : i < l.length) :
    l.getD i d ∈ l := by
  induction l generalizing i with
  | nil => simp at h
  | cons a t ih =>
    cases i with
    | zero => simp
    | succ j =>
      simp only [List.length_cons] at h
      exact List.mem_cons_of_mem a (ih j (by omega))

theorem map_eq_range_map {α β : Type} (f : α → β) (d : α) (l : List α) :
    l.map f = (List.range l.length).map (fun i => f (l.getD i d)) := by
  induction l with
  | nil => rfl
  | cons a t ih =>
    simp only [List.map_cons, List.length_cons, List.range_succ_eq_map, List.map_map]
    exact congrArg (f a :: ·) ih

theorem splitCommaAux_length (l : List Char) :
    ∀ acc, (splitCommaAux l acc).length = l.count ',' + 1 := by
  induction l with
  | nil => intro acc; simp [splitCommaAux]
  | cons c cs ih =>
    intro acc
    by_cases hc : c = ','
    · subst hc
      simp [splitCommaAux, ih, List.count_cons]
    · simp [splitCommaAux, hc, ih, List.count_cons]

theorem colNames_length (myHeader : String) (h : count_params myHeader ≠ 0) :
    (colNames myHeader).length = count_params myHeader := by
  have hlen : ¬ myHeader.length < 1 := by
    intro hcon
    exact h (by simp [count_params, hcon])
  rw [colNames, List.length_map, splitComma, splitCommaAux_length, count_params, if_neg hlen]

theorem commaJoin_cons (s t : String) (l : List String) :
    commaJoin (s :: t :: l) = s ++ "," ++ commaJoin (t :: l) := rfl

theorem joinAll_cons (s : String) (l : List String) :
    joinAll (s :: l) = s ++ joinAll l := rfl

theorem natCharsAux_digits (fuel : Nat) :
    ∀ n, ∀ c ∈ natCharsAux fuel n, c.isDigit = true := by
  induction fuel with
  | zero => intro n c hc; simp [natCharsAux] at hc
  | succ k ih =>
    intro n c hc
    rw [natCharsAux] at hc
    by_cases h : n < 10
    · rw [if_pos h] at hc
      simp only [List.mem_singleton] at hc
      subst hc
      have hall : ∀ m, m < 10 → (Nat.digitChar m).isDigit = true := by decide
      exact hall n h
    · rw [if_neg h] at hc
      rcases List.mem_append.mp hc with h1 | h1
      · exact ih (n / 10) c h1
      · simp only [List.mem_singleton] at h1
        subst h1
        have hall : ∀ m, m < 10 → (Nat.digitChar m).isDigit = true := by decide
        exact hall (n % 10) (Nat.mod_lt _ (by omega))

theorem intStr_chars (i : Int) : ∀ c ∈ (intStr i).toList, c.isDigit = true ∨ c = '-' := by
  intro c hc
  rw [intStr] at hc
  by_cases h : i < 0
  · rw [if_pos h] at hc
    rw [show ("-" : String) = String.mk ['-'] from rfl, mk_append, toList_mk] at hc
    rcases List.mem_append.mp hc with h1 | h1
    · simp only [List.mem_singleton] at h1
      right
      exact h1
    · left
      exact natCharsAux_digits _ _ c h1
  · rw [if_neg h, toList_mk] at hc
    left
    exact natCharsAux_digits _ _ c hc

/- ===== evaluation lemmas for the pieces of prep_msg ===== -/

theorem dict_bounds (HEADERS : List String) (LETTERS : List Char) (MULTIPLIERS : List ℚ)
    (myHeader : String) (hdict : GoodDict HEADERS LETTERS MULTIPLIERS myHeader) (c : Nat)
    (hc : c < (colNames myHeader).length) :
    0 ≤ keyOf HEADERS myHeader c ∧ (keyOf HEADERS myHeader c).toNat < LETTERS.length ∧
      (keyOf HEADERS myHeader c).toNat < MULTIPLIERS.length :=
  hdict ((colNames myHeader).getD c "") (getD_mem _ _ _ hc)

theorem getIdx_eq {α : Type} (l : List α) (i : Int) (d : α) (h0 : 0 ≤ i)
    (h1 : i.toNat < l.length) : getIdx l i = some (l.getD i.toNat d) := by
  rw [getIdx, if_neg (by omega), getElem?_eq_getD _ _ d h1]

theorem letters_loop_eq (LETTERS : List Char) (idxs : List Int)
    (h : ∀ i ∈ idxs, 0 ≤ i ∧ i.toNat < LETTERS.length) :
    letters_loop LETTERS idxs =
      some (String.mk (idxs.map (fun i => LETTERS.getD i.toNat 'A'))) := by
  induction idxs with
  | nil => rfl
  | cons j rest ih =>
    obtain ⟨h1, h2⟩ := h j (List.mem_cons_self j rest)
    have hg := getIdx_eq LETTERS j 'A' h1 h2
    have hr := ih (fun i hi => h i (List.mem_cons_of_mem j hi))
    rw [letters_loop, hg, hr]
    show some _ = _
    rw [mk_append]
    rfl

theorem cpFloat_eq (t : CSVTable) (np : Nat) (htab : GoodTable t np) (c r : Nat)
    (hc1 : 1 ≤ c) (hc2 : c < np) (hr : r < t.datetimes.length) :
    cpFloat t c (r : Int) = some (tval t c r) := by
  obtain ⟨hlen, hcols⟩ := htab
  have hcb : c - 1 < t.floats.length := by omega
  have h1 : t.floats[c - 1]? = some (t.floats.getD (c - 1) []) := getElem?_eq_getD _ _ _ hcb
  have hclen : (t.floats.getD (c - 1) []).length = t.datetimes.length :=
    hcols _ (getD_mem _ _ _ hcb)
  have h2 : (t.floats.getD (c - 1) [])[r]? = some ((t.floats.getD (c - 1) []).getD r 0) :=
    getElem?_eq_getD _ _ _ (by omega)
  rw [cpFloat, if_neg (by omega)]
  show (t.floats[c - 1]?).bind _ = _
  rw [h1]
  show (t.floats.getD (c - 1) [])[((r : Int)).toNat]? = _
  rw [Int.toNat_natCast, h2, tval]

theorem scaled_val_eq (HEADERS : List String) (MULTIPLIERS : List ℚ) (myHeader : String)
    (c : Nat) (v : ℚ) (hc : c < (colNames myHeader).length)
    (hk : 0 ≤ keyOf HEADERS myHeader c)
    (hm : (keyOf HEADERS myHeader c).toNat < MULTIPLIERS.length) :
    scaled_val MULTIPLIERS ((colNames myHeader).map (fun nm => find_key HEADERS nm)) c v =
      some (ardRound (v * multOf HEADERS MULTIPLIERS myHeader c)) := by
  have h1 : ((colNames myHeader).map (fun nm => find_key HEADERS nm))[c]? =
      some (keyOf HEADERS myHeader c) := by
    rw [List.getElem?_map, getElem?_eq_getD _ _ "" hc]
    rfl
  have h2 := getIdx_eq MULTIPLIERS (keyOf HEADERS myHeader c) 0 hk hm
  rw [scaled_val, h1]
  show (getIdx MULTIPLIERS _).bind _ = _
  rw [h2]
  rfl

theorem inner_loop_eq (HEADERS : List String) (MULTIPLIERS : List ℚ) (myHeader : String)
    (t : CSVTable) (r : Nat)
    (htab : GoodTable t (count_params myHeader))
    (hmb : ∀ c, c < (colNames myHeader).length →
      0 ≤ keyOf HEADERS myHeader c ∧ (keyOf HEADERS myHeader c).toNat < MULTIPLIERS.length)
    (hcn : (colNames myHeader).length = count_params myHeader)
    (hr : r < t.datetimes.length) :
    ∀ fuel column, 1 ≤ fuel → 1 ≤ column → column + fuel = count_params myHeader →
      inner_loop MULTIPLIERS ((colNames myHeader).map (fun nm => find_key HEADERS nm))
          (count_params myHeader) t r fuel column =
        some (commaJoin ((List.range' column fuel).map
          (fun c => scaledStr HEADERS MULTIPLIERS myHeader t c r)) ++ ":") := by
  intro fuel
  induction fuel with
  | zero =>
    intro column h1 _ _
    omega
  | succ k ih =>
    intro column _ hc1 hsum
    have hcnp : column < count_params myHeader := by omega
    have hv := cpFloat_eq t (count_params myHeader) htab column r hc1 hcnp hr
    obtain ⟨hk, hm⟩ := hmb column (by omega)
    have hs := scaled_val_eq HEADERS MULTIPLIERS myHeader column (tval t column r)
      (by omega) hk hm
    cases k with
    | zero =>
      rw [inner_loop, hv]
      show (scaled_val _ _ _ _).bind _ = _
      rw [hs]
      show some (_ ++ _ ++ _) = _
      rw [if_neg (by omega)]
      show some (_ ++ _ ++ "") = _
      rw [str_append_empty]
      rfl
    | succ k2 =>
      have hrest := ih (column + 1) (by omega) (by omega) (by omega)
      rw [inner_loop, hv]
      show (scaled_val _ _ _ _).bind _ = _
      rw [hs]
      show (inner_loop _ _ _ _ _ _ _).bind _ = _
      rw [hrest]
      show some (_ ++ _ ++ _) = _
      rw [if_pos (by omega)]
      have hrange : List.range' column (k2 + 1 + 1) = column :: List.range' (column + 1) (k2 + 1) :=
        rfl
      rw [hrange, List.map_cons]
      have htail : ∃ s l, (List.range' (column + 1) (k2 + 1)).map
          (fun c => scaledStr HEADERS MULTIPLIERS myHeader t c r) = s :: l :=
        ⟨_, _, rfl⟩
      obtain ⟨s, l, hsl⟩ := htail
      rw [hsl, commaJoin_cons, ← hsl]
      simp only [str_append_assoc]
      rfl

theorem rows_loop_eq (HEADERS : List String) (MULTIPLIERS : List ℚ) (myHeader : String)
    (t : CSVTable)
    (hnp : 4 ≤ count_params myHeader)
    (htab : GoodTable t (count_params myHeader))
    (hmb : ∀ c, c < (colNames myHeader).length →
      0 ≤ keyOf HEADERS myHeader c ∧ (keyOf HEADERS myHeader c).toNat < MULTIPLIERS.length)
    (hcn : (colNames myHeader).length = count_params myHeader) :
    ∀ fuel row, row + fuel = t.datetimes.length →
      rows_loop MULTIPLIERS ((colNames myHeader).map (fun nm => find_key HEADERS nm))
          (count_params myHeader) t fuel row =
        some (joinAll ((List.range' row fuel).map
          (fun i => rowSection HEADERS MULTIPLIERS myHeader t (count_params myHeader) i))) := by
  intro fuel
  induction fuel with
  | zero =>
    intro row _
    rfl
  | succ k ih =>
    intro row hsum
    have hr : row < t.datetimes.length := by omega
    have hinner := inner_loop_eq HEADERS MULTIPLIERS myHeader t row htab hmb hcn hr
      (count_params myHeader - 3) 3 (by omega) (by omega) (by omega)
    have hrest := ih (row + 1) (by omega)
    rw [rows_loop, hinner]
    show (rows_loop _ _ _ _ _ _).bind _ = _
    rw [hrest]
    show some _ = _
    have hrange : List.range' row (k + 1) = row :: List.range' (row + 1) k := rfl
    rw [hrange, List.map_cons, joinAll_cons]
    rfl

theorem prep_msg_eq (HEADERS : List String) (LETTERS : List Char) (MULTIPLIERS : List ℚ)
    (myHeader : String) (t : CSVTable)
    (hnp : 4 ≤ count_params myHeader)
    (hdict : GoodDict HEADERS LETTERS MULTIPLIERS myHeader)
    (htab : GoodTable t (count_params myHeader))
    (hrows : t.datetimes ≠ []) :
    prep_msg HEADERS LETTERS MULTIPLIERS myHeader t =
      some (lettersStr HEADERS LETTERS myHeader (count_params myHeader) ++ ":" ++
        compact_datetime (t.datetimes.headD "") ++ ":" ++
        scaledStr HEADERS MULTIPLIERS myHeader t 1 (t.datetimes.length - 1) ++ ":" ++
        scaledStr HEADERS MULTIPLIERS myHeader t 2 (t.datetimes.length - 1) ++ ":" ++
        joinAll ((List.range t.datetimes.length).map
          (fun i => rowSection HEADERS MULTIPLIERS myHeader t (count_params myHeader) i))) := by
  have hcp : count_params myHeader ≠ 0 := by omega
  have hcn := colNames_length myHeader hcp
  have hR : 1 ≤ t.datetimes.length := List.length_pos.mpr hrows
  have hmb : ∀ c, c < (colNames myHeader).length →
      0 ≤ keyOf HEADERS myHeader c ∧ (keyOf HEADERS myHeader c).toNat < MULTIPLIERS.length := by
    intro c hc
    obtain ⟨h1, _, h3⟩ := dict_bounds HEADERS LETTERS MULTIPLIERS myHeader hdict c hc
    exact ⟨h1, h3⟩
  have hpop : populate_header_index HEADERS myHeader =
      some ((colNames myHeader).map (fun nm => find_key HEADERS nm)) := by
    rw [populate_header_index, if_neg hcp]
  have hbound : ∀ i ∈ (colNames myHeader).map (fun nm => find_key HEADERS nm),
      0 ≤ i ∧ i.toNat < LETTERS.length := by
    intro i hi
    obtain ⟨nm, hnm, rfl⟩ := List.mem_map.mp hi
    obtain ⟨h1, h2, _⟩ := hdict nm hnm
    exact ⟨h1, h2⟩
  have hletters : String.mk (((colNames myHeader).map (fun nm => find_key HEADERS nm)).map
      (fun i => LETTERS.getD i.toNat 'A')) =
      lettersStr HEADERS LETTERS myHeader (count_params myHeader) := by
    rw [List.map_map,
      map_eq_range_map ((fun i => LETTERS.getD i.toNat 'A') ∘ fun nm => find_key HEADERS nm) ""
        (colNames myHeader),
      hcn]
    rfl
  have hlet : letters_loop LETTERS ((colNames myHeader).map (fun nm => find_key HEADERS nm)) =
      some (lettersStr HEADERS LETTERS myHeader (count_params myHeader)) := by
    rw [letters_loop_eq LETTERS _ hbound, hletters]
  have hdt : cpDate t 0 = some (t.datetimes.headD "") := by
    rw [cpDate, if_neg (by omega)]
    cases h : t.datetimes with
    | nil => exact absurd h hrows
    | cons a l => simp
  have hcast : ((t.datetimes.length : Int) - 1) = ((t.datetimes.length - 1 : Nat) : Int) := by
    omega
  have hbv := cpFloat_eq t (count_params myHeader) htab 1 (t.datetimes.length - 1)
    (by omega) (by omega) (by omega)
  have hbs := scaled_val_eq HEADERS MULTIPLIERS myHeader 1 (tval t 1 (t.datetimes.length - 1))
    (by omega) (hmb 1 (by omega)).1 (hmb 1 (by omega)).2
  have hmv := cpFloat_eq t (count_params myHeader) htab 2 (t.datetimes.length - 1)
    (by omega) (by omega) (by omega)
  have hms := scaled_val_eq HEADERS MULTIPLIERS myHeader 2 (tval t 2 (t.datetimes.length - 1))
    (by omega) (hmb 2 (by omega)).1 (hmb 2 (by omega)).2
  have hdata := rows_loop_eq HEADERS MULTIPLIERS myHeader t hnp htab hmb hcn
    t.datetimes.length 0 (by omega)
  rw [List.range_eq_range']
  simp only [prep_msg, hpop, hlet, hdt, hcast, hbv, hbs, hmv, hms, hdata,
    Option.bind_eq_bind', Option.some_bind']
  rfl

theorem compact_datetime_chars (dt : String)
    (y1 y2 y3 y4 mo1 mo2 d1 d2 h1 h2 : Char) (rest : List Char)
    (hfmt : dt.toList = y1 :: y2 :: y3 :: y4 :: '-' :: mo1 :: mo2 :: '-' ::
      d1 :: d2 :: 'T' :: h1 :: h2 :: rest) :
    compact_datetime dt = String.mk [y3, y4, mo1, mo2, d1, d2, h1, h2] := by
  rw [compact_datetime]
  simp only [ardSubstring, hfmt]
  rfl

theorem mk_length (l : List Char) : (String.mk l).length = l.length := rfl

theorem compact_datetime_length (dt : String) (h : 13 ≤ dt.length) :
    (compact_datetime dt).length = 8 := by
  have hl : 13 ≤ dt.toList.length := h
  rw [compact_datetime]
  simp only [ardSubstring, mk_append, mk_length, List.length_append, List.length_take,
    List.length_drop]
  omega

theorem joinAll_colon (l : List String) (hne : l ≠ [])
    (h : ∀ s ∈ l, ∃ p, s = p ++ ":") :
    ∃ p, joinAll l = p ++ ":" := by
  induction l with
  | nil => exact absurd rfl hne
  | cons a rest ih =>
    cases rest with
    | nil =>
      obtain ⟨p, hp⟩ := h a (List.mem_cons_self a [])
      exact ⟨p, by rw [joinAll_cons, joinAll, str_append_empty, hp]⟩
    | cons b r2 =>
      obtain ⟨p, hp⟩ := ih (by simp) (fun s hs => h s (List.mem_cons_of_mem a hs))
      exact ⟨a ++ p, by rw [joinAll_cons, hp, str_append_assoc]⟩

/- ===== concrete instances used by witnesses and counterexamples ===== -/

/-- Concrete dictionary names covering the default Hydros21 header, in the
order datetime, battery, memory, then the three sampled columns. -/
def H6 : List String :=
  ["datetime", "batt_v", "memory", "water_level_mm", "water_temp_c", "water_ec_dcm"]

/-- Concrete dictionary letter codes for `H6`. -/
def L6 : List Char := ['D', 'E', 'F', 'A', 'B', 'C']

/-- Concrete dictionary multipliers for `H6`, following the worked example of
spec section 8: battery x100, memory x0.01, level x1, temperature x10, ec x1. -/
def M6 : List ℚ := [1, 100, 1/100, 1, 10, 1]

/-- The default Hydros21 header of RemoteLogger.cpp line 14. -/
def hdr6 : String := "datetime,batt_v,memory,water_level_mm,water_temp_c,water_ec_dcm"

/-- One buffered row, the worked example of spec section 8:
`2001-01-10T01:11:05,4.31,24627,10,18.7,3`. -/
def t1 : CSVTable :=
  ⟨["2001-01-10T01:11:05"], [[431/100], [24627], [10], [187/10], [3]]⟩

/-- A table with zero buffered rows: only a header in /HOURLY.csv. -/
def t0 : CSVTable := ⟨[], [[], [], [], [], []]⟩

/-- A dictionary missing the `water_ec_dcm` column of the schema. -/
def H5 : List String := ["datetime", "batt_v", "memory", "water_level_mm", "water_temp_c"]

/-- Letter codes for `H5`. -/
def L5 : List Char := ['D', 'E', 'F', 'A', 'B']

/-- Multipliers for `H5`. -/
def M5 : List ℚ := [1, 100, 1/100, 1, 10]

/-- An SD card with no files. -/
def emptyFS : FS := fun _ => none

/-- An SD card whose /HOURLY.csv holds a header line and two data rows. -/
def hourlyFS : FS :=
  fun n => if n = "/HOURLY.csv" then some ["h", "r1", "r2"] else none

/- ===== the claims ===== -/

/-- C1: for every valid schema and every non-empty batch of buffered rows,
`prep_msg` returns the colon-delimited ASCII string
`<letters>:<YYMMDDHH>:<battery>:<memory>:<row0 comma-values>:...:<rowN comma-values>:`
with battery and memory each in their own colon-separated section, the values
within each per-row section separated by commas, every emitted value an
integer string with no decimal point, and a trailing colon at the end. -/
theorem prep_msg_wire_format (HEADERS : List String) (LETTERS : List Char)
    (MULTIPLIERS : List ℚ) (myHeader : String) (t : CSVTable)
    (hnp : 4 ≤ count_params myHeader)
    (hdict : GoodDict HEADERS LETTERS MULTIPLIERS myHeader)
    (htab : GoodTable t (count_params myHeader))
    (hrows : t.datetimes ≠ [])
    (hdt : 13 ≤ (t.datetimes.headD "").length) :
    prep_msg HEADERS LETTERS MULTIPLIERS myHeader t =
      some (lettersStr HEADERS LETTERS myHeader (count_params myHeader) ++ ":" ++
        compact_datetime (t.datetimes.headD "") ++ ":" ++
        scaledStr HEADERS MULTIPLIERS myHeader t 1 (t.datetimes.length - 1) ++ ":" ++
        scaledStr HEADERS MULTIPLIERS myHeader t 2 (t.datetimes.length - 1) ++ ":" ++
        joinAll ((List.range t.datetimes.length).map
          (fun i => rowSection HEADERS MULTIPLIERS myHeader t (count_params myHeader) i)))
    ∧ (compact_datetime (t.datetimes.headD "")).length = 8
    ∧ (∀ c r, ∀ ch ∈ (scaledStr HEADERS MULTIPLIERS myHeader t c r).toList,
        ch.isDigit = true ∨ ch = '-')
    ∧ (∃ p, prep_msg HEADERS LETTERS MULTIPLIERS myHeader t = some (p ++ ":")) := by
  have hmain := prep_msg_eq HEADERS LETTERS MULTIPLIERS myHeader t hnp hdict htab hrows
  refine ⟨hmain, compact_datetime_length _ hdt, ?_, ?_⟩
  · intro c r ch hch
    exact intStr_chars _ ch hch
  · have hne : (List.range t.datetimes.length).map
        (fun i => rowSection HEADERS MULTIPLIERS myHeader t (count_params myHeader) i) ≠ [] := by
      have hR : 1 ≤ t.datetimes.length := List.length_pos.mpr hrows
      intro hcon
      have h0 := congrArg List.length hcon
      rw [List.length_map, List.length_range] at h0
      simp only [List.length_nil] at h0
      omega
    obtain ⟨p, hp⟩ := joinAll_colon _ hne (by
      intro s hs
      obtain ⟨i, _, rfl⟩ := List.mem_map.mp hs
      exact ⟨_, rfl⟩)
    refine ⟨lettersStr HEADERS LETTERS myHeader (count_params myHeader) ++ ":" ++
      compact_datetime (t.datetimes.headD "") ++ ":" ++
      scaledStr HEADERS MULTIPLIERS myHeader t 1 (t.datetimes.length - 1) ++ ":" ++
      scaledStr HEADERS MULTIPLIERS myHeader t 2 (t.datetimes.length - 1) ++ ":" ++ p, ?_⟩
    rw [hmain, hp]
    simp only [str_append_assoc]

/-- Witness for C1 at the worked example of spec section 8. -/
theorem prep_msg_wire_format_witness :
    (4 ≤ count_params hdr6 ∧ GoodDict H6 L6 M6 hdr6 ∧ GoodTable t1 6 ∧
      t1.datetimes ≠ [] ∧ 13 ≤ (t1.datetimes.headD "").length) ∧
    prep_msg H6 L6 M6 hdr6 t1 =
      some (lettersStr H6 L6 hdr6 (count_params hdr6) ++ ":" ++
        compact_datetime (t1.datetimes.headD "") ++ ":" ++
        scaledStr H6 M6 hdr6 t1 1 (t1.datetimes.length - 1) ++ ":" ++
        scaledStr H6 M6 hdr6 t1 2 (t1.datetimes.length - 1) ++ ":" ++
        joinAll ((List.range t1.datetimes.length).map
          (fun i => rowSection H6 M6 hdr6 t1 (count_params hdr6) i))) :=
  ⟨⟨by decide, by decide, by decide, by decide, by decide⟩,
    (prep_msg_wire_format H6 L6 M6 hdr6 t1 (by decide) (by decide) (by decide)
      (by decide) (by decide)).1⟩

/-- C2 counterexample: at the concrete six-column schema the letter prefix of
the message is `DEFABC`, one code per column of the whole schema including
the datetime, battery, and memory columns; there is no message whose prefix
section is only `ABC`, the codes of the columns at index 3 and above, as the
claim states. -/
theorem prep_msg_letter_codes_counterexample :
    (∃ tail, prep_msg H6 L6 M6 hdr6 t1 = some ("DEFABC" ++ ":" ++ tail)) ∧
    ¬ (∃ tail, prep_msg H6 L6 M6 hdr6 t1 = some ("ABC" ++ ":" ++ tail)) := by
  have h := prep_msg_eq H6 L6 M6 hdr6 t1 (by decide) (by decide) (by decide) (by decide)
  have hls : lettersStr H6 L6 hdr6 (count_params hdr6) = "DEFABC" := by decide
  constructor
  · refine ⟨compact_datetime (t1.datetimes.headD "") ++ (":" ++
      (scaledStr H6 M6 hdr6 t1 1 (t1.datetimes.length - 1) ++ (":" ++
      (scaledStr H6 M6 hdr6 t1 2 (t1.datetimes.length - 1) ++ (":" ++
      joinAll ((List.range t1.datetimes.length).map
        (fun i => rowSection H6 M6 hdr6 t1 (count_params hdr6) i))))))), ?_⟩
    rw [h, hls]
    simp only [str_append_assoc]
  · rintro ⟨tail, htail⟩
    rw [h, hls] at htail
    have hstr := Option.some.inj htail
    have hchars := congrArg String.toList hstr
    simp only [toList_append] at hchars
    have h1 : ("DEFABC" : String).toList = ['D', 'E', 'F', 'A', 'B', 'C'] := rfl
    have h2 : ("ABC" : String).toList = ['A', 'B', 'C'] := rfl
    rw [h1, h2] at hchars
    simp at hchars

/-- C2, amended: the letter prefix of the encoded message contains exactly one
resolved letter code for every column of the schema, the timestamp, battery,
and memory columns included (`num_params` letters in total), not only for the
columns at index 3 and above. -/
theorem prep_msg_letter_codes_all_columns (HEADERS : List String) (LETTERS : List Char)
    (MULTIPLIERS : List ℚ) (myHeader : String) (t : CSVTable)
    (hnp : 4 ≤ count_params myHeader)
    (hdict : GoodDict HEADERS LETTERS MULTIPLIERS myHeader)
    (htab : GoodTable t (count_params myHeader))
    (hrows : t.datetimes ≠ []) :
    (∃ tail, prep_msg HEADERS LETTERS MULTIPLIERS myHeader t =
      some (String.mk ((List.range (count_params myHeader)).map
        (codeOf HEADERS LETTERS myHeader)) ++ ":" ++ tail)) ∧
    ((List.range (count_params myHeader)).map
      (codeOf HEADERS LETTERS myHeader)).length = count_params myHeader := by
  have h := prep_msg_eq HEADERS LETTERS MULTIPLIERS myHeader t hnp hdict htab hrows
  constructor
  · refine ⟨compact_datetime (t.datetimes.headD "") ++ (":" ++
      (scaledStr HEADERS MULTIPLIERS myHeader t 1 (t.datetimes.length - 1) ++ (":" ++
      (scaledStr HEADERS MULTIPLIERS myHeader t 2 (t.datetimes.length - 1) ++ (":" ++
      joinAll ((List.range t.datetimes.length).map
        (fun i => rowSection HEADERS MULTIPLIERS myHeader t (count_params myHeader) i))))))), ?_⟩
    rw [h]
    simp only [str_append_assoc]
    rfl
  · simp

/-- Witness for the amended C2 at the concrete six-column schema. -/
theorem prep_msg_letter_codes_all_columns_witness :
    (4 ≤ count_params hdr6 ∧ GoodDict H6 L6 M6 hdr6 ∧ GoodTable t1 6 ∧ t1.datetimes ≠ []) ∧
    ((∃ tail, prep_msg H6 L6 M6 hdr6 t1 =
      some (String.mk ((List.range (count_params hdr6)).map (codeOf H6 L6 hdr6)) ++
        ":" ++ tail)) ∧
    ((List.range (count_params hdr6)).map (codeOf H6 L6 hdr6)).length = count_params hdr6) :=
  ⟨⟨by decide, by decide, by decide, by decide⟩,
    prep_msg_letter_codes_all_columns H6 L6 M6 hdr6 t1 (by decide) (by decide)
      (by decide) (by decide)⟩

/-- C3: when the first buffered row's timestamp has the fixed layout
`YYYY-MM-DDTHH:MM:SS`, the compact-timestamp section of the message is the
eight characters year-last-two-digits, month, day, hour of that row,
concatenated with no separators. -/
theorem prep_msg_compact_timestamp (HEADERS : List String) (LETTERS : List Char)
    (MULTIPLIERS : List ℚ) (myHeader : String) (t : CSVTable)
    (y1 y2 y3 y4 mo1 mo2 d1 d2 h1 h2 : Char) (rest : List Char)
    (hnp : 4 ≤ count_params myHeader)
    (hdict : GoodDict HEADERS LETTERS MULTIPLIERS myHeader)
    (htab : GoodTable t (count_params myHeader))
    (hrows : t.datetimes ≠ [])
    (hfmt : (t.datetimes.headD "").toList = y1 :: y2 :: y3 :: y4 :: '-' :: mo1 :: mo2 ::
      '-' :: d1 :: d2 :: 'T' :: h1 :: h2 :: rest) :
    ∃ tail, prep_msg HEADERS LETTERS MULTIPLIERS myHeader t =
      some (lettersStr HEADERS LETTERS myHeader (count_params myHeader) ++ ":" ++
        String.mk [y3, y4, mo1, mo2, d1, d2, h1, h2] ++ ":" ++ tail) := by
  have h := prep_msg_eq HEADERS LETTERS MULTIPLIERS myHeader t hnp hdict htab hrows
  have hcd := compact_datetime_chars (t.datetimes.headD "") y1 y2 y3 y4 mo1 mo2 d1 d2 h1 h2
    rest hfmt
  refine ⟨scaledStr HEADERS MULTIPLIERS myHeader t 1 (t.datetimes.length - 1) ++ (":" ++
    (scaledStr HEADERS MULTIPLIERS myHeader t 2 (t.datetimes.length - 1) ++ (":" ++
    joinAll ((List.range t.datetimes.length).map
      (fun i => rowSection HEADERS MULTIPLIERS myHeader t (count_params myHeader) i))))), ?_⟩
  rw [h, hcd]
  simp only [str_append_assoc]

/-- Witness for C3 at the example timestamp `2001-01-10T01:11:05`, whose
compact form is `01011001`. -/
theorem prep_msg_compact_timestamp_witness :
    ((t1.datetimes.headD "").toList = '2' :: '0' :: '0' :: '1' :: '-' :: '0' :: '1' ::
      '-' :: '1' :: '0' :: 'T' :: '0' :: '1' :: [':', '1', '1', ':', '0', '5'] ∧
      String.mk ['0', '1', '0', '1', '1', '0', '0', '1'] = "01011001") ∧
    (∃ tail, prep_msg H6 L6 M6 hdr6 t1 =
      some (lettersStr H6 L6 hdr6 (count_params hdr6) ++ ":" ++
        String.mk ['0', '1', '0', '1', '1', '0', '0', '1'] ++ ":" ++ tail)) :=
  ⟨⟨by decide, by decide⟩,
    prep_msg_compact_timestamp H6 L6 M6 hdr6 t1 '2' '0' '0' '1' '0' '1' '1' '0' '0' '1'
      [':', '1', '1', ':', '0', '5'] (by decide) (by decide) (by decide) (by decide)
      (by decide)⟩

/-- C4: the battery and the memory sections of the message are
`round(v * multiplier)` rendered as integer strings, where `v` is the battery
(respectively memory) value of the last buffered row and the multiplier is the
one the dictionary resolves for that column. -/
theorem prep_msg_battery_memory_scaled (HEADERS : List String) (LETTERS : List Char)
    (MULTIPLIERS : List ℚ) (myHeader : String) (t : CSVTable)
    (hnp : 4 ≤ count_params myHeader)
    (hdict : GoodDict HEADERS LETTERS MULTIPLIERS myHeader)
    (htab : GoodTable t (count_params myHeader))
    (hrows : t.datetimes ≠ []) :
    ∃ letters ts tail, prep_msg HEADERS LETTERS MULTIPLIERS myHeader t =
      some (letters ++ ":" ++ ts ++ ":" ++
        intStr (ardRound (tval t 1 (t.datetimes.length - 1) *
          multOf HEADERS MULTIPLIERS myHeader 1)) ++ ":" ++
        intStr (ardRound (tval t 2 (t.datetimes.length - 1) *
          multOf HEADERS MULTIPLIERS myHeader 2)) ++ ":" ++ tail) := by
  have h := prep_msg_eq HEADERS LETTERS MULTIPLIERS myHeader t hnp hdict htab hrows
  exact ⟨lettersStr HEADERS LETTERS myHeader (count_params myHeader),
    compact_datetime (t.datetimes.headD ""),
    joinAll ((List.range t.datetimes.length).map
      (fun i => rowSection HEADERS MULTIPLIERS myHeader t (count_params myHeader) i)), h⟩

/-- Witness for C4 at the worked example: battery `round(4.31 * 100)`, memory
`round(24627 * 0.01)` from the last (only) buffered row. -/
theorem prep_msg_battery_memory_scaled_witness :
    (4 ≤ count_params hdr6 ∧ GoodDict H6 L6 M6 hdr6 ∧ GoodTable t1 6 ∧ t1.datetimes ≠ []) ∧
    (∃ letters ts tail, prep_msg H6 L6 M6 hdr6 t1 =
      some (letters ++ ":" ++ ts ++ ":" ++
        intStr (ardRound (tval t1 1 (t1.datetimes.length - 1) * multOf H6 M6 hdr6 1)) ++
        ":" ++
        intStr (ardRound (tval t1 2 (t1.datetimes.length - 1) * multOf H6 M6 hdr6 2)) ++
        ":" ++ tail)) :=
  ⟨⟨by decide, by decide, by decide, by decide⟩,
    prep_msg_battery_memory_scaled H6 L6 M6 hdr6 t1 (by decide) (by decide) (by decide)
      (by decide)⟩

/-- C5 (code bug): with a schema column that has no dictionary entry,
`find_key` returns `-1` and `prep_msg` then reads `LETTERS[-1]` and
`MULTIPLIERS[-1]` out of bounds (modelled as failure) instead of returning a
`SchemaResolutionError`: on the hardware the message is silently built from a
garbage mapping, exactly the behavior spec section 4.3 says must not be
reproduced. -/
theorem prep_msg_unknown_column_garbage_index :
    find_key H5 "water_ec_dcm" = -1 ∧ prep_msg H5 L5 M5 hdr6 t1 = none := by
  constructor
  · decide
  · decide

/-- C6 (code bug): with zero buffered rows `prep_msg` reads
`out_datetimes[0]` and `floatOut[num_rows - 1] = floatOut[-1]` out of bounds
(modelled as failure) instead of returning an `EmptyBatchError`: the function
has no error channel at all, its return type is a plain string. -/
theorem prep_msg_empty_batch_oob : prep_msg H6 L6 M6 hdr6 t0 = none := by decide

/-- Content of /TRACKING.csv after `n + 1` increments from an absent file:
the header line `"n"` followed by `n + 1` data lines `"1"`. -/
theorem tracking_after (n : Nat) :
    (increment_samples^[n + 1] emptyFS) "/TRACKING.csv" =
      some ("n" :: List.replicate (n + 1) "1") := by
  induction n with
  | zero => decide
  | succ k ih =>
    rw [Function.iterate_succ_apply', increment_samples, write_to_csv]
    simp only [if_pos rfl, ih]
    rw [List.replicate_succ' (k + 1) "1"]
    rfl

/-- C7 (code bug): `increment_samples` called `n + 1` times starting from an
absent tracking stream makes `num_samples` return `n`, one less than the
number of increments: the parser row count already excludes the header line,
and `num_samples` subtracts one more. -/
theorem num_samples_off_by_one (n : Nat) :
    num_samples (increment_samples^[n + 1] emptyFS) = (n : Int) := by
  rw [num_samples]
  simp only [getRowsCount, tracking_after n, List.length_cons, List.length_replicate]
  omega

/-- C8 (code bug): after `reset_sample_counter` (and in any state with a
missing tracking stream) `num_samples` returns `-1`, not `0`: the parser
reports zero rows for a missing file and `num_samples` subtracts one. -/
theorem num_samples_reset_negative (fs : FS) :
    num_samples (reset_sample_counter fs) = -1 := by
  have h : (reset_sample_counter fs) "/TRACKING.csv" = none := by
    rw [reset_sample_counter, sdRemove]
    simp
  rw [num_samples]
  simp [getRowsCount, h]

/-- C9: `num_hours` returns the number of data rows staged in the queue
stream, excluding the header row: a stream holding a header plus `M` data
rows yields `M`. -/
theorem num_hours_counts_data_rows (myHeader : String) (fs : FS) (hdr : String)
    (rows : List String) (h : fs "/HOURLY.csv" = some (hdr :: rows)) :
    num_hours myHeader fs = (rows.length : Int) := by
  rw [num_hours]
  simp [getRowsCount, h]

/-- Witness for C9: a queue stream holding a header and two data rows. -/
theorem num_hours_counts_data_rows_witness :
    hourlyFS "/HOURLY.csv" = some ("h" :: ["r1", "r2"]) ∧
    num_hours hdr6 hourlyFS = ((["r1", "r2"] : List String).length : Int) :=
  ⟨by decide, num_hours_counts_data_rows hdr6 hourlyFS "h" ["r1", "r2"] (by decide)⟩

/-- C10: `write_to_csv` appends exactly one data line per call; the header
line is written only when the file does not yet exist, so a created file is
exactly `[header, data]`, an append turns existing lines `ls` into
`ls ++ [data]` leaving every previously written line unchanged, and no other
file is touched. -/
theorem write_to_csv_append_semantics (fs : FS) (header data outname other : String) :
    write_to_csv header data outname fs outname =
      some ((fs outname).getD [header] ++ [data]) ∧
    write_to_csv header data outname fs other =
      (if other = outname then some ((fs outname).getD [header] ++ [data])
       else fs other) := by
  constructor
  · rw [write_to_csv]
    simp only [if_pos rfl]
    cases fs outname <;> rfl
  · rw [write_to_csv]
    by_cases ho : other = outname
    · simp only [if_pos ho]
      cases fs outname <;> rfl
    · simp only [if_neg ho]

end RemoteLoggerSpec
